import Mathlib

/-!
Shallow embedding of `src/main.py` (a command-line contact manager) and
verification of its specification claims.

Conventions of the embedding:
* Python strings are modelled as Lean `String`s viewed as lists of
  characters; character classification (`isdigit`, whitespace, `lower`)
  is the ASCII one, matching the program's intended inputs.
* Python exceptions are modelled with `Except`; a handler that can both
  mutate the book and raise returns `AddressBook × Except PyErr String`,
  the book component reflecting the mutations performed before the raise.
* `datetime.date` is modelled by `Date` below; `date.toordinal`,
  `date.weekday`, `date.replace(year=…)`, ordering and `timedelta`
  addition follow CPython's definitions (proleptic Gregorian calendar).
-/

/-- Gregorian leap-year rule, as in CPython's `calendar.isleap`. -/
def isLeap (y : Nat) : Bool :=
  y % 4 == 0 && (y % 100 != 0 || y % 400 == 0)

/-- Number of days in month `m` of year `y` (months are 1–12). -/
def daysInMonth (y m : Nat) : Nat :=
  if m = 2 then (if isLeap y then 29 else 28)
  else if m = 4 ∨ m = 6 ∨ m = 9 ∨ m = 11 then 30
  else 31

/-- A valid proleptic-Gregorian calendar date in CPython's supported range
(`datetime.MINYEAR = 1`, `datetime.MAXYEAR = 9999`). -/
def validDate (y m d : Nat) : Bool :=
  1 ≤ y && y ≤ 9999 && 1 ≤ m && m ≤ 12 && 1 ≤ d && d ≤ daysInMonth y m

/-- A calendar date (year, month, day). -/
structure Date where
  year : Nat
  month : Nat
  day : Nat
deriving DecidableEq, Repr

/-- Days in year `y` strictly before month `m` (CPython `_days_before_month`). -/
def daysBeforeMonth (y m : Nat) : Nat :=
  (List.range (m - 1)).foldl (fun acc i => acc + daysInMonth y (i + 1)) 0

/-- CPython's `date.toordinal`: day number counting from `0001-01-01` = 1. -/
def Date.toOrdinal (d : Date) : Nat :=
  365 * (d.year - 1) + (d.year - 1) / 4 - (d.year - 1) / 100 + (d.year - 1) / 400
    + daysBeforeMonth d.year d.month + d.day

/-- CPython's `date.weekday`: `(toordinal + 6) % 7`, Monday = 0 … Sunday = 6. -/
def Date.weekday (d : Date) : Nat :=
  (d.toOrdinal + 6) % 7

/-- Difference of two dates in days, as in `(a - b).days` on Python dates. -/
def dateSub (a b : Date) : Int :=
  (a.toOrdinal : Int) - (b.toOrdinal : Int)

/-- Python's `<` on dates: lexicographic on (year, month, day). -/
def Date.ltb (a b : Date) : Bool :=
  a.year < b.year ||
    (a.year == b.year && (a.month < b.month ||
      (a.month == b.month && a.day < b.day)))

/-- The calendar successor of a (valid) date. -/
def Date.next (d : Date) : Date :=
  if d.day < daysInMonth d.year d.month then ⟨d.year, d.month, d.day + 1⟩
  else if d.month < 12 then ⟨d.year, d.month + 1, 1⟩
  else ⟨d.year + 1, 1, 1⟩

/-- `d + timedelta(days = n)` for a Python date (iterated calendar successor). -/
def Date.addDays : Date → Nat → Date
  | d, 0 => d
  | d, n + 1 => d.next.addDays n

/-- Zero-pad a number to two digits, as `%d` / `%m` in `strftime`. -/
def pad2 (n : Nat) : String :=
  if n < 10 then "0" ++ toString n else toString n

/-- Zero-pad a year to four digits, as `%Y` in `strftime`. -/
def pad4 (n : Nat) : String :=
  String.mk (List.replicate (4 - (toString n).length) '0') ++ toString n

/-- `date.strftime("%d.%m.%Y")`. -/
def formatDate (d : Date) : String :=
  pad2 d.day ++ "." ++ pad2 d.month ++ "." ++ pad4 d.year

/-- `date.replace(year = y)`: keeps month and day, validates the result and
raises `ValueError` (here: `Except.error`) when the combination is invalid —
exactly what happens for Feb 29 in a non-leap target year. -/
def replaceYear (d : Date) (y : Nat) : Except String Date :=
  if validDate y d.month d.day then Except.ok ⟨y, d.month, d.day⟩
  else Except.error "day is out of range for month"

/-- Python `str.isdigit` restricted to ASCII: nonempty and all digits. -/
def pyIsdigit (s : String) : Bool :=
  s.data ≠ [] && s.data.all Char.isDigit

/-- Numeric value of a list of decimal digit characters (as Python `int`). -/
def toNatDigits (l : List Char) : Nat :=
  l.foldl (fun acc c => acc * 10 + (c.toNat - 48)) 0

/-- Split a character list at every `'.'` (keeping empty pieces), the shape
`strptime` imposes with the format `"%d.%m.%Y"` whose fields are digit-only. -/
def splitDots : List Char → List (List Char)
  | [] => [[]]
  | c :: rest =>
    if c = '.' then [] :: splitDots rest
    else
      match splitDots rest with
      | h :: t => (c :: h) :: t
      | [] => [[c]]

/-- `datetime.strptime(s, "%d.%m.%Y")`, returning the parsed date.
CPython compiles the format to the anchored, fully-consuming regex
`(?P<d>3[01]|[12]\d|0[1-9]|[1-9])\.(?P<m>1[0-2]|0[1-9]|[1-9])\.(?P<Y>\d\d\d\d)`
and then builds `datetime(Y, m, d)`, which validates the calendar date.
The day and month fields therefore take 1–2 digits (zero-padding optional),
the year exactly 4 digits. -/
def strptimeDMY (s : List Char) : Option Date :=
  match splitDots s with
  | [ds, ms, ys] =>
    if ds ≠ [] && ds.all Char.isDigit && ds.length ≤ 2
        && 1 ≤ toNatDigits ds && toNatDigits ds ≤ 31
        && ms ≠ [] && ms.all Char.isDigit && ms.length ≤ 2
        && 1 ≤ toNatDigits ms && toNatDigits ms ≤ 12
        && ys.length = 4 && ys.all Char.isDigit then
      if validDate (toNatDigits ys) (toNatDigits ms) (toNatDigits ds) then
        some ⟨toNatDigits ys, toNatDigits ms, toNatDigits ds⟩
      else none
    else none
  | _ => none

/-- `Phone` (`class Phone(Field)`): a validated phone-number field. -/
structure Phone where
  value : String
deriving DecidableEq, Repr

/-- `Phone.__init__`: raises `ValueError` unless `value.isdigit()` and
`len(value) == 10`; otherwise stores the string. -/
def Phone.create (value : String) : Except String Phone :=
  if !pyIsdigit value || value.length != 10 then
    Except.error "Phone number must be exactly 10 digits and contain only numbers."
  else Except.ok ⟨value⟩

/-- `Field.__str__` on a phone: the stored string. -/
def Phone.str (p : Phone) : String := p.value

/-- `Birthday` (`class Birthday(Field)`): stores the original display string
and the parsed date. -/
structure Birthday where
  value : String
  date : Date
deriving DecidableEq, Repr

/-- `Birthday.__init__`: `datetime.strptime(value, "%d.%m.%Y")`, re-raising
any parse failure as `ValueError("Invalid date format. Use DD.MM.YYYY")`. -/
def Birthday.create (value : String) : Except String Birthday :=
  match strptimeDMY value.data with
  | some d => Except.ok ⟨value, d⟩
  | none => Except.error "Invalid date format. Use DD.MM.YYYY"

/-- `Record`: one contact — a name (`Name` stores the string verbatim),
an ordered list of phones, an optional birthday. -/
structure Record where
  name : String
  phones : List Phone
  birthday : Option Birthday
deriving DecidableEq, Repr

/-- `Record.__init__(name)`. -/
def Record.mkNew (name : String) : Record := ⟨name, [], none⟩

/-- `Record.add_phone`: `self.phones.append(Phone(phone))` — the `Phone`
constructor runs first, so on `ValueError` nothing is appended. -/
def Record.add_phone (record : Record) (phone : String) :
    Record × Except String Unit :=
  match Phone.create phone with
  | Except.ok p => ({ record with phones := record.phones ++ [p] }, Except.ok ())
  | Except.error e => (record, Except.error e)

/-- The loop body of `Record.edit_phone` over the phone list: replace the
first phone equal to `old_phone` by a freshly validated `new_phone`. -/
def editPhoneList (phones : List Phone) (old_phone new_phone : String) :
    List Phone × String :=
  match phones with
  | [] => ([], "Phone number not found.")
  | p :: rest =>
    if p.value = old_phone then
      match Phone.create new_phone with
      | Except.ok np => (np :: rest, "Phone number updated.")
      | Except.error e => (p :: rest, e)
    else
      match editPhoneList rest old_phone new_phone with
      | (rest2, msg) => (p :: rest2, msg)

/-- `Record.edit_phone(old_phone, new_phone)`: returns the (possibly)
updated record and the reported message; never raises. -/
def Record.edit_phone (record : Record) (old_phone new_phone : String) :
    Record × String :=
  match editPhoneList record.phones old_phone new_phone with
  | (ps, msg) => ({ record with phones := ps }, msg)

/-- `Record.find_phone`. -/
def Record.find_phone (record : Record) (phone : String) : String :=
  match record.phones.find? (fun p => p.value == phone) with
  | some p => p.value
  | none => "Phone number not found."

/-- `Record.add_birthday`: `self.birthday = Birthday(birthday)` — the
constructor runs first, so on `ValueError` the old birthday is kept. -/
def Record.add_birthday (record : Record) (birthday : String) :
    Record × Except String Unit :=
  match Birthday.create birthday with
  | Except.ok b => ({ record with birthday := some b }, Except.ok ())
  | Except.error e => (record, Except.error e)

/-- Python's `str.join`. -/
def pyJoin (sep : String) : List String → String
  | [] => ""
  | [x] => x
  | x :: xs => x ++ sep ++ pyJoin sep xs

/-- `Record.__str__`. -/
def Record.str (record : Record) : String :=
  "Contact name: " ++ record.name ++ ", phones: "
    ++ pyJoin "; " (record.phones.map Phone.value)
    ++ (match record.birthday with
        | some b => ", birthday: " ++ b.value
        | none => "")

/-- Insertion into a Python `dict` (insertion-ordered; assigning to an
existing key replaces the value in place, otherwise appends). -/
def dictInsert (l : List (String × Record)) (k : String) (v : Record) :
    List (String × Record) :=
  match l with
  | [] => [(k, v)]
  | (k1, v1) :: rest =>
    if k1 = k then (k, v) :: rest else (k1, v1) :: dictInsert rest k v

/-- Deletion from a Python `dict`. -/
def dictDelete (l : List (String × Record)) (k : String) :
    List (String × Record) :=
  match l with
  | [] => []
  | (k1, v1) :: rest =>
    if k1 = k then rest else (k1, v1) :: dictDelete rest k

/-- `AddressBook(UserDict)`: its `data` dict, as an insertion-ordered
association list with (by construction) unique keys. -/
structure AddressBook where
  data : List (String × Record)
deriving DecidableEq, Repr

/-- `AddressBook.add_record`: `self.data[record.name.value] = record`. -/
def AddressBook.add_record (book : AddressBook) (record : Record) : AddressBook :=
  ⟨dictInsert book.data record.name record⟩

/-- `AddressBook.delete`: `if name in self.data: del self.data[name]`. -/
def AddressBook.delete (book : AddressBook) (name : String) : AddressBook :=
  ⟨dictDelete book.data name⟩

/-- `AddressBook.find`: `self.data.get(name)`. -/
def AddressBook.find (book : AddressBook) (name : String) : Option Record :=
  match book.data.find? (fun kv => kv.1 == name) with
  | some kv => some kv.2
  | none => none

/-- In-place mutation of the record object stored under key `key` (Python
handlers mutate the `Record` they obtained from `book.find(name)`; the dict
entry is the same object, so the entry under that key changes with it). -/
def AddressBook.update (book : AddressBook) (key : String) (record : Record) :
    AddressBook :=
  ⟨dictInsert book.data key record⟩

/-- Run an `Except`-valued function over a list, collecting the results in
order; the first raised exception aborts the whole computation (the partial
result list is discarded), as an uncaught exception does in a Python loop. -/
def exceptMap (f : α → Except ε β) : List α → Except ε (List β)
  | [] => Except.ok []
  | a :: l =>
    match f a with
    | Except.error e => Except.error e
    | Except.ok b =>
      match exceptMap f l with
      | Except.error e => Except.error e
      | Except.ok bs => Except.ok (b :: bs)

/-- The body of `AddressBook.get_upcoming_birthdays` for one record:
`none` when the record is skipped, `some (name, congratulation_date)` when
it is included, `error` when `date.replace` raises. -/
def processRecord (today : Date) (record : Record) :
    Except String (Option (String × String)) :=
  match record.birthday with
  | none => Except.ok none
  | some b =>
    match replaceYear b.date today.year with
    | Except.error e => Except.error e
    | Except.ok bty0 =>
      match (if bty0.ltb today then replaceYear b.date (today.year + 1)
             else Except.ok bty0) with
      | Except.error e => Except.error e
      | Except.ok bty =>
        if 0 ≤ dateSub bty today ∧ dateSub bty today ≤ 7 then
          Except.ok (some (record.name,
            formatDate
              (if bty.weekday = 5 then bty.addDays 2
               else if bty.weekday = 6 then bty.addDays 1
               else bty)))
        else Except.ok none

/-- `AddressBook.get_upcoming_birthdays`, with `today` (read in the source
from `datetime.today()`) passed explicitly. -/
def AddressBook.get_upcoming_birthdays (book : AddressBook) (today : Date) :
    Except String (List (String × String)) :=
  match exceptMap (processRecord today) (book.data.map Prod.snd) with
  | Except.error e => Except.error e
  | Except.ok l => Except.ok (l.filterMap id)

/-- The exceptions the `input_error` decorator distinguishes. -/
inductive PyErr where
  | valueError (msg : String)
  | keyError
  | other (msg : String)
deriving DecidableEq, Repr

/-- The type of a command handler before decoration: it receives the
argument list and the book, and returns the (possibly mutated) book
together with either a result string or a raised exception. -/
abbrev Handler := List String → AddressBook → AddressBook × Except PyErr String

/-- `add_contact(args, book)`.  Note the mutation order on the new-record
path: the empty record is added to the book *before* `add_phone` runs, so a
`ValueError` from phone validation leaves the fresh record in the book. -/
def add_contact : Handler := fun args book =>
  match args with
  | name :: phone :: _ =>
    (match book.find name with
     | some record =>
       if phone ≠ "" then
         match record.add_phone phone with
         | (r2, Except.ok _) => (book.update name r2, Except.ok "Contact updated.")
         | (_, Except.error e) => (book, Except.error (PyErr.valueError e))
       else (book, Except.ok "Contact updated.")
     | none =>
       let record := Record.mkNew name
       let book1 := book.add_record record
       if phone ≠ "" then
         match record.add_phone phone with
         | (r2, Except.ok _) => (book1.update name r2, Except.ok "Contact added.")
         | (_, Except.error e) => (book1, Except.error (PyErr.valueError e))
       else (book1, Except.ok "Contact added."))
  | _ =>
    (book, Except.error (PyErr.valueError
      "not enough values to unpack (expected at least 2, got fewer)"))

/-- `change_contact(args, book)`.  The unpacking `name, old, new = args`
requires exactly three arguments. -/
def change_contact : Handler := fun args book =>
  match args with
  | [name, old_phone, new_phone] =>
    (match book.find name with
     | some record =>
       match record.edit_phone old_phone new_phone with
       | (r2, msg) => (book.update name r2, Except.ok msg)
     | none => (book, Except.ok "Contact not found."))
  | _ =>
    (book, Except.error (PyErr.valueError "values to unpack mismatch (expected 3)"))

/-- `show_phone(args, book)`; `args[0]` on an empty list raises `IndexError`
(caught by the decorator's generic branch, but unreachable from `main`). -/
def show_phone : Handler := fun args book =>
  match args with
  | name :: _ =>
    (match book.find name with
     | some record =>
       (book, Except.ok (name ++ ": " ++ pyJoin "; " (record.phones.map Phone.value)))
     | none => (book, Except.ok "Contact not found."))
  | [] => (book, Except.error (PyErr.other "list index out of range"))

/-- `show_all(book)` (undecorated in the source). -/
def show_all (book : AddressBook) : String :=
  if book.data = [] then "No contacts found."
  else pyJoin "\n" ((book.data.map Prod.snd).map Record.str)

/-- `add_birthday(args, book)`; its arity check for fewer than two
arguments lives in the handler body, not in the decorator. -/
def add_birthday : Handler := fun args book =>
  if args.length < 2 then
    (book, Except.ok "Please provide name and birthday (DD.MM.YYYY).")
  else
    match args with
    | name :: birthday :: _ =>
      (match book.find name with
       | some record =>
         match record.add_birthday birthday with
         | (r2, Except.ok _) =>
           (book.update name r2, Except.ok ("Birthday added for " ++ name ++ "."))
         | (_, Except.error e) => (book, Except.error (PyErr.valueError e))
       | none => (book, Except.ok "Contact not found."))
    | _ => (book, Except.error (PyErr.other "unreachable"))

/-- `show_birthday(args, book)`; its arity check also lives in the body. -/
def show_birthday : Handler := fun args book =>
  if args.length < 1 then (book, Except.ok "Please provide a contact name.")
  else
    match args with
    | name :: _ =>
      (match book.find name with
       | some record =>
         match record.birthday with
         | some b =>
           (book, Except.ok (name ++ "\x27s birthday: " ++ b.value))
         | none => (book, Except.ok (name ++ " has no birthday set."))
       | none => (book, Except.ok "Contact not found."))
    | [] => (book, Except.error (PyErr.other "unreachable"))

/-- `birthdays(args, book)`, with `today` passed explicitly (the source
reads it from the clock inside `get_upcoming_birthdays`). -/
def birthdays (today : Date) : Handler := fun _ book =>
  match book.get_upcoming_birthdays today with
  | Except.error e => (book, Except.error (PyErr.valueError e))
  | Except.ok upcoming =>
    if upcoming ≠ [] then
      (book, Except.ok (pyJoin "\n" (upcoming.map
        (fun bi => "Congratulate " ++ bi.1 ++ " on " ++ bi.2))))
    else (book, Except.ok "No upcoming birthdays in the next week.")

/-- The `input_error` decorator: per-handler arity checks keyed on the
wrapped function's `__name__`, then exception normalization.  `args = none`
models Python `args is None`. -/
def input_error (fname : String) (func : Handler)
    (args : Option (List String)) (book : AddressBook) : AddressBook × String :=
  match args with
  | none => (book, "Please enter a command.")
  | some args =>
    if fname = "add_contact" ∧ args.length = 0 then
      (book, "Please provide both name and phone number.")
    else if fname = "add_contact" ∧ args.length = 1 then
      (book, "Please provide a phone number.")
    else if fname = "change_contact" ∧ args.length < 3 then
      (book, "Please provide name, old phone, and new phone.")
    else if (fname = "show_phone" ∨ fname = "add_birthday") ∧ args.length = 0 then
      (book, "Please provide a contact name.")
    else
      match func args book with
      | (b, Except.ok s) => (b, s)
      | (b, Except.error (PyErr.valueError m)) => (b, m)
      | (b, Except.error PyErr.keyError) => (b, "Contact not found.")
      | (b, Except.error (PyErr.other m)) => (b, "Unexpected error: " ++ m)

/-- Worker for `splitWs`: `acc` holds the reversed current token. -/
def splitWsAux : List Char → List Char → List (List Char)
  | [], acc => if acc = [] then [] else [acc.reverse]
  | c :: rest, acc =>
    if c.isWhitespace then
      if acc = [] then splitWsAux rest []
      else acc.reverse :: splitWsAux rest []
    else splitWsAux rest (c :: acc)

/-- Python `str.split()` with no separator: split on runs of whitespace,
dropping empty pieces. -/
def splitWs (l : List Char) : List (List Char) :=
  splitWsAux l []

/-- `parse_input(user_input)`: an empty or whitespace-only line yields
`(None, [])`; otherwise the first whitespace token lowercased and the
remaining tokens verbatim. -/
def parse_input (user_input : String) : Option String × List String :=
  match splitWs user_input.data with
  | [] => (none, [])
  | cmd :: args => (some (String.mk cmd).toLower, args.map String.mk)

/-- One iteration of the dispatch loop in `main`: parse the line, then the
`if`/`elif` chain on the command token.  Every handler is invoked with
`some args`. -/
def dispatch (today : Date) (user_input : String) (book : AddressBook) :
    AddressBook × String :=
  match parse_input user_input with
  | (none, _) => (book, "Invalid command.")
  | (some command, args) =>
    if command = "close" ∨ command = "exit" then (book, "Good bye!")
    else if command = "hello" then (book, "How can I help you?")
    else if command = "add" then input_error "add_contact" add_contact (some args) book
    else if command = "change" then input_error "change_contact" change_contact (some args) book
    else if command = "phone" then input_error "show_phone" show_phone (some args) book
    else if command = "all" then (book, show_all book)
    else if command = "add-birthday" then input_error "add_birthday" add_birthday (some args) book
    else if command = "show-birthday" then input_error "show_birthday" show_birthday (some args) book
    else if command = "birthdays" then input_error "birthdays" (birthdays today) (some args) book
    else (book, "Invalid command.")

/-- Well-formedness of the book's dict: every key equals its record's name,
and keys are unique. -/
def Wf (book : AddressBook) : Prop :=
  (∀ kv ∈ book.data, kv.1 = kv.2.name) ∧ (book.data.map Prod.fst).Nodup

/-- A mutation step on an `AddressBook`. -/
inductive BookOp where
  | addR (r : Record)
  | delR (name : String)

/-- Apply one mutation. -/
def applyOp (book : AddressBook) : BookOp → AddressBook
  | BookOp.addR r => book.add_record r
  | BookOp.delR n => book.delete n

/-- Apply a sequence of `add_record`/`delete` operations to the empty book. -/
def applyOps (ops : List BookOp) : AddressBook :=
  ops.foldl applyOp ⟨[]⟩

/-- Inverse of `splitDots`: interleave `'.'` between the parts. -/
def joinDots : List (List Char) → List Char
  | [] => []
  | [a] => a
  | a :: parts => a ++ '.' :: joinDots parts

/-- Modelled from the spec's words: the "exact pattern `DD.MM.YYYY`" — a
two-digit day, a dot, a two-digit month, a dot, a four-digit year — that
in addition denotes a real calendar date. -/
def specDDMMYYYY (s : String) : Bool :=
  match splitDots s.data with
  | [ds, ms, ys] =>
    ds.length = 2 && ds.all Char.isDigit && ms.length = 2 && ms.all Char.isDigit
      && ys.length = 4 && ys.all Char.isDigit
      && validDate (toNatDigits ys) (toNatDigits ms) (toNatDigits ds)
  | _ => false

/-- C4: `Phone` construction succeeds exactly when the input is a string of
10 decimal digits, in which case the stored value displays as the input
itself; otherwise it fails with the validation `ValueError`, and a failing
`add_phone` leaves the record unchanged. -/
theorem phone_create_spec (s : String) :
    (s.length = 10 ∧ s.data.all Char.isDigit = true →
      Phone.create s = Except.ok ⟨s⟩ ∧ Phone.str ⟨s⟩ = s)
    ∧ (¬(s.length = 10 ∧ s.data.all Char.isDigit = true) →
      Phone.create s =
        Except.error "Phone number must be exactly 10 digits and contain only numbers.")
    ∧ (∀ r : Record, (∀ p, Phone.create s ≠ Except.ok p) → (r.add_phone s).1 = r) := by
  refine ⟨?_, ?_, ?_⟩
  · rintro ⟨h10, hdig⟩
    have hne : s.data ≠ [] := by
      intro h
      have : s.length = 0 := by simp [String.length, h]
      omega
    simp [Phone.create, pyIsdigit, Phone.str, hne, hdig, h10]
  · intro h
    have hcond : (!pyIsdigit s || s.length != 10) = true := by
      by_cases h10 : s.length = 10
      · have hdig : s.data.all Char.isDigit = false := by
          cases hd : s.data.all Char.isDigit
          · rfl
          · exact absurd ⟨h10, hd⟩ h
        simp [pyIsdigit, hdig]
      · simp [bne_iff_ne, h10]
    simp [Phone.create, hcond]
  · intro r hp
    unfold Record.add_phone
    cases hc : Phone.create s with
    | ok p => exact absurd hc (hp p)
    | error e => simp

/-- Witness for `phone_create_spec` at the concrete string "0123456789". -/
theorem phone_create_spec_witness :
    Phone.create "0123456789" = Except.ok ⟨"0123456789"⟩ ∧
      Phone.str ⟨"0123456789"⟩ = "0123456789" :=
  (phone_create_spec "0123456789").1 ⟨by decide, by decide⟩

/-- C8 (amended): the arity messages actually produced.  The decorator
checks `add`/`change`/`phone` and *zero-argument* `add-birthday` before the
handler runs, but the "Please provide name and birthday (DD.MM.YYYY)."
message is produced by the `add_birthday` handler body and only for exactly
one argument; with zero arguments the decorator answers
"Please provide a contact name." instead.  `show-birthday`'s message also
comes from its handler body. -/
theorem arity_messages (book : AddressBook) (args : List String) :
    (args.length = 0 → input_error "add_contact" add_contact (some args) book
      = (book, "Please provide both name and phone number."))
    ∧ (args.length = 1 → input_error "add_contact" add_contact (some args) book
      = (book, "Please provide a phone number."))
    ∧ (args.length < 3 → input_error "change_contact" change_contact (some args) book
      = (book, "Please provide name, old phone, and new phone."))
    ∧ (args.length = 0 → input_error "show_phone" show_phone (some args) book
      = (book, "Please provide a contact name."))
    ∧ (args.length = 0 → input_error "add_birthday" add_birthday (some args) book
      = (book, "Please provide a contact name."))
    ∧ (args.length = 1 → input_error "add_birthday" add_birthday (some args) book
      = (book, "Please provide name and birthday (DD.MM.YYYY)."))
    ∧ (args.length = 0 → input_error "show_birthday" show_birthday (some args) book
      = (book, "Please provide a contact name.")) := by
  refine ⟨?_, ?_, ?_, ?_, ?_, ?_, ?_⟩ <;> intro h
  · simp [input_error, h]
  · simp [input_error, h]
  · simp [input_error, h]
  · simp [input_error, h]
  · simp [input_error, h]
  · simp [input_error, h, add_birthday]
  · simp [input_error, h, show_birthday]

/-- Witness for `arity_messages`: `add-birthday` with one argument and
`add` with one argument, on the empty book. -/
theorem arity_messages_witness :
    input_error "add_birthday" add_birthday (some ["Ann"]) ⟨[]⟩
      = (⟨[]⟩, "Please provide name and birthday (DD.MM.YYYY).")
    ∧ input_error "add_contact" add_contact (some ["Ann"]) ⟨[]⟩
      = (⟨[]⟩, "Please provide a phone number.") :=
  ⟨((arity_messages ⟨[]⟩ ["Ann"]).2.2.2.2.2.1) rfl,
   ((arity_messages ⟨[]⟩ ["Ann"]).2.1) rfl⟩

/-- Counterexample to C8 as stated: `add-birthday` with zero arguments is
answered by the decorator with "Please provide a contact name.", not with
the birthday-specific message the arity table lists for it. -/
theorem arity_add_birthday_cex :
    input_error "add_birthday" add_birthday (some []) ⟨[]⟩
      = (⟨[]⟩, "Please provide a contact name.")
    ∧ "Please provide a contact name."
      ≠ "Please provide name and birthday (DD.MM.YYYY)." :=
  ⟨rfl, by decide⟩

/-- C7 (amended): a command failing with a validation `ValueError` reports
the error message, and the book is left unchanged — except for `add` with a
name not yet in the book and an invalid phone, where the freshly created
record (with no phones) remains in the book when the error is reported. -/
theorem invalid_format_state (book : AddressBook) (name raw phone : String)
    (r : Record) (e : String) :
    (book.find name = some r → Birthday.create raw = Except.error e →
      input_error "add_birthday" add_birthday (some [name, raw]) book = (book, e))
    ∧ (book.find name = some r → Phone.create phone = Except.error e → phone ≠ "" →
      input_error "add_contact" add_contact (some [name, phone]) book = (book, e))
    ∧ (book.find name = none → Phone.create phone = Except.error e → phone ≠ "" →
      input_error "add_contact" add_contact (some [name, phone]) book
        = (book.add_record (Record.mkNew name), e)) := by
  refine ⟨?_, ?_, ?_⟩
  · intro hf hb
    simp [input_error, add_birthday, hf, Record.add_birthday, hb]
  · intro hf hp hne
    simp [input_error, add_contact, hf, Record.add_phone, hp, hne]
  · intro hf hp hne
    simp [input_error, add_contact, hf, Record.add_phone, hp, hne]

/-- Witness for `invalid_format_state`: invalid birthday for an existing
contact, and invalid phone for an existing and for a fresh contact. -/
theorem invalid_format_state_witness :
    input_error "add_birthday" add_birthday (some ["Bob", "31.02.2024"])
        ⟨[("Bob", Record.mkNew "Bob")]⟩
      = (⟨[("Bob", Record.mkNew "Bob")]⟩, "Invalid date format. Use DD.MM.YYYY")
    ∧ input_error "add_contact" add_contact (some ["Ann", "12345"]) ⟨[]⟩
      = (AddressBook.add_record ⟨[]⟩ (Record.mkNew "Ann"),
         "Phone number must be exactly 10 digits and contain only numbers.") :=
  ⟨(invalid_format_state ⟨[("Bob", Record.mkNew "Bob")]⟩ "Bob" "31.02.2024" ""
      (Record.mkNew "Bob") _).1 rfl rfl,
   (invalid_format_state ⟨[]⟩ "Ann" "" "12345" (Record.mkNew "Ann") _).2.2 rfl rfl
      (by decide)⟩

/-- Counterexample to C7 as stated: after `add Ann 12345` (an invalid
phone) on a book not containing "Ann", the error is reported but the book
now *does* contain "Ann" (an empty record). -/
theorem invalid_format_state_cex :
    (input_error "add_contact" add_contact (some ["Ann", "12345"]) ⟨[]⟩).2
      = "Phone number must be exactly 10 digits and contain only numbers."
    ∧ AddressBook.find
        (input_error "add_contact" add_contact (some ["Ann", "12345"]) ⟨[]⟩).1 "Ann"
      = some (Record.mkNew "Ann") :=
  ⟨rfl, rfl⟩

theorem editPhoneList_not_found (phones : List Phone) (old_phone new_phone : String)
    (h : ∀ p ∈ phones, p.value ≠ old_phone) :
    editPhoneList phones old_phone new_phone = (phones, "Phone number not found.") := by
  induction phones with
  | nil => rfl
  | cons p rest ih =>
    have hp : p.value ≠ old_phone := h p (List.mem_cons_self p rest)
    have hr := ih (fun q hq => h q (List.mem_cons_of_mem p hq))
    simp [editPhoneList, hp, hr]

theorem editPhoneList_found (pre : List Phone) (p : Phone) (post : List Phone)
    (old_phone new_phone : String)
    (hpre : ∀ q ∈ pre, q.value ≠ old_phone) (hp : p.value = old_phone) :
    editPhoneList (pre ++ p :: post) old_phone new_phone
      = match Phone.create new_phone with
        | Except.ok np => (pre ++ np :: post, "Phone number updated.")
        | Except.error e => (pre ++ p :: post, e) := by
  induction pre with
  | nil =>
    cases hc : Phone.create new_phone with
    | ok np => simp [editPhoneList, hp, hc]
    | error e => simp [editPhoneList, hp, hc]
  | cons q pre ih =>
    have hq : q.value ≠ old_phone := hpre q (List.mem_cons_self q pre)
    have hr := ih (fun x hx => hpre x (List.mem_cons_of_mem q hx))
    cases hc : Phone.create new_phone with
    | ok np =>
      rw [hc] at hr
      simp [editPhoneList, hq, hr]
    | error e =>
      rw [hc] at hr
      simp [editPhoneList, hq, hr]

/-- C6: `edit_phone` replaces the first phone equal to `old_phone` with a
validated `new_phone` and reports success; on validation failure it leaves
the whole phone list unchanged and reports the validation error; when no
phone matches it reports "Phone number not found." (a normal result, not an
exception) and leaves the list unchanged. -/
theorem edit_phone_spec (record : Record) (old_phone new_phone : String) :
    ((∀ p ∈ record.phones, p.value ≠ old_phone) →
      record.edit_phone old_phone new_phone = (record, "Phone number not found."))
    ∧ (∀ (pre : List Phone) (p : Phone) (post : List Phone),
        record.phones = pre ++ p :: post →
        (∀ q ∈ pre, q.value ≠ old_phone) → p.value = old_phone →
        (∀ np, Phone.create new_phone = Except.ok np →
          record.edit_phone old_phone new_phone
            = ({ record with phones := pre ++ np :: post }, "Phone number updated."))
        ∧ (∀ e, Phone.create new_phone = Except.error e →
          record.edit_phone old_phone new_phone = (record, e))) := by
  constructor
  · intro h
    simp [Record.edit_phone, editPhoneList_not_found record.phones old_phone new_phone h]
  · intro pre p post hdecomp hpre hp
    have hfound := editPhoneList_found pre p post old_phone new_phone hpre hp
    constructor
    · intro np hnp
      rw [hnp] at hfound
      unfold Record.edit_phone
      rw [hdecomp, hfound]
    · intro e he
      rw [he] at hfound
      unfold Record.edit_phone
      rw [hdecomp, hfound, ← hdecomp]

/-- Witness for `edit_phone_spec`: on a record with the single phone
"1111111111", editing "9999999999" reports not-found and leaves the list
unchanged, and editing "1111111111" to "2222222222" replaces it. -/
theorem edit_phone_spec_witness :
    Record.edit_phone ⟨"X", [⟨"1111111111"⟩], none⟩ "9999999999" "2222222222"
      = (⟨"X", [⟨"1111111111"⟩], none⟩, "Phone number not found.")
    ∧ Record.edit_phone ⟨"X", [⟨"1111111111"⟩], none⟩ "1111111111" "2222222222"
      = (⟨"X", [⟨"2222222222"⟩], none⟩, "Phone number updated.") :=
  ⟨(edit_phone_spec ⟨"X", [⟨"1111111111"⟩], none⟩ "9999999999" "2222222222").1
      (by decide),
   ((edit_phone_spec ⟨"X", [⟨"1111111111"⟩], none⟩ "1111111111" "2222222222").2
      [] ⟨"1111111111"⟩ [] rfl (by decide) rfl).1 ⟨"2222222222"⟩ rfl⟩

theorem dictInsert_dictInsert (l : List (String × Record)) (k : String)
    (v1 v2 : Record) : dictInsert (dictInsert l k v1) k v2 = dictInsert l k v2 := by
  induction l with
  | nil => simp [dictInsert]
  | cons kv rest ih =>
    by_cases h : kv.1 = k
    · simp [dictInsert, h]
    · simp [dictInsert, h, ih]

theorem find_dictInsert_self (l : List (String × Record)) (k : String) (v : Record) :
    AddressBook.find ⟨dictInsert l k v⟩ k = some v := by
  induction l with
  | nil => simp [dictInsert, AddressBook.find]
  | cons kv rest ih =>
    by_cases h : kv.1 = k
    · simp [dictInsert, h, AddressBook.find]
    · simpa [dictInsert, h, AddressBook.find] using ih

theorem mem_dictInsert (l : List (String × Record)) (k : String) (v : Record)
    (kv : String × Record) : kv ∈ dictInsert l k v → kv = (k, v) ∨ kv ∈ l := by
  induction l with
  | nil => intro h; simpa [dictInsert] using h
  | cons kv1 rest ih =>
    intro h
    by_cases hk : kv1.1 = k
    · simp only [dictInsert, hk, if_pos, List.mem_cons] at h
      rcases h with h | h
      · exact Or.inl h
      · exact Or.inr (List.mem_cons_of_mem kv1 h)
    · simp only [dictInsert, hk, if_neg, not_false_iff, List.mem_cons] at h
      rcases h with h | h
      · exact Or.inr (by simp [h])
      · rcases ih h with h1 | h1
        · exact Or.inl h1
        · exact Or.inr (List.mem_cons_of_mem kv1 h1)

theorem keys_dictInsert (l : List (String × Record)) (k : String) (v : Record) :
    (dictInsert l k v).map Prod.fst
      = (if k ∈ l.map Prod.fst then l.map Prod.fst else l.map Prod.fst ++ [k]) := by
  induction l with
  | nil => simp [dictInsert]
  | cons kv rest ih =>
    by_cases hk : kv.1 = k
    · simp [dictInsert, hk]
    · by_cases hm : k ∈ rest.map Prod.fst
      · simp [dictInsert, hk, hm, ih, Ne.symm hk]
      · simp [dictInsert, hk, hm, ih, Ne.symm hk]

theorem dictDelete_sublist (l : List (String × Record)) (k : String) :
    (dictDelete l k).Sublist l := by
  induction l with
  | nil => simp [dictDelete]
  | cons kv rest ih =>
    by_cases hk : kv.1 = k
    · simp only [dictDelete, hk, if_pos]
      exact (List.sublist_cons_self kv rest)
    · simp only [dictDelete, hk, if_neg, not_false_iff]
      exact List.Sublist.cons₂ kv ih

theorem dictDelete_of_absent (l : List (String × Record)) (k : String) :
    (∀ kv ∈ l, kv.1 ≠ k) → dictDelete l k = l := by
  induction l with
  | nil => intro _; rfl
  | cons kv rest ih =>
    intro h
    have hk : kv.1 ≠ k := h kv (List.mem_cons_self kv rest)
    simp [dictDelete, hk, ih (fun x hx => h x (List.mem_cons_of_mem kv hx))]

theorem find_eq_none_iff (book : AddressBook) (name : String) :
    book.find name = none ↔ ∀ kv ∈ book.data, kv.1 ≠ name := by
  unfold AddressBook.find
  cases hf : book.data.find? (fun kv => kv.1 == name) with
  | some kv =>
    simp only [reduceCtorEq, false_iff, not_forall]
    have := List.find?_some hf
    exact ⟨kv, List.mem_of_find?_eq_some hf, by simpa using this⟩
  | none =>
    simp only [true_iff]
    intro kv hkv
    have := List.find?_eq_none.mp hf kv hkv
    simpa using this

theorem wf_add_record (book : AddressBook) (r : Record) (h : Wf book) :
    Wf (book.add_record r) := by
  obtain ⟨hkeys, hnodup⟩ := h
  constructor
  · intro kv hkv
    rcases mem_dictInsert book.data r.name r kv hkv with h1 | h1
    · rw [h1]
    · exact hkeys kv h1
  · show ((dictInsert book.data r.name r).map Prod.fst).Nodup
    rw [keys_dictInsert]
    by_cases hm : r.name ∈ book.data.map Prod.fst
    · simpa [hm] using hnodup
    · rw [if_neg hm, List.nodup_append]
      refine ⟨hnodup, List.nodup_singleton _, ?_⟩
      intro a ha hb
      rw [List.mem_singleton] at hb
      exact hm (hb ▸ ha)

theorem wf_delete (book : AddressBook) (name : String) (h : Wf book) :
    Wf (book.delete name) := by
  obtain ⟨hkeys, hnodup⟩ := h
  have hsub := dictDelete_sublist book.data name
  constructor
  · intro kv hkv
    exact hkeys kv (hsub.mem hkv)
  · exact List.Nodup.sublist (hsub.map Prod.fst) hnodup

theorem countP_key_dictInsert (l : List (String × Record)) (k : String) (v : Record)
    (hnodup : (l.map Prod.fst).Nodup) :
    (dictInsert l k v).countP (fun kv => kv.1 == k) = 1 := by
  induction l with
  | nil => simp [dictInsert, List.countP_cons]
  | cons kv rest ih =>
    by_cases hk : kv.1 = k
    · have hrest : k ∉ rest.map Prod.fst := by
        rw [← hk]
        exact (List.nodup_cons.mp (by simpa using hnodup)).1
      have hzero : rest.countP (fun kv => kv.1 == k) = 0 := by
        rw [List.countP_eq_zero]
        intro x hx
        simp only [beq_iff_eq]
        intro hxk
        exact hrest (hxk ▸ List.mem_map_of_mem Prod.fst hx)
      simp [dictInsert, hk, List.countP_cons, hzero]
    · have := ih (List.nodup_cons.mp (by simpa using hnodup)).2
      simp [dictInsert, hk, List.countP_cons, this]

/-- C9: `add_record` upserts by name (adding two records with the same name
is the same as adding only the second, which is then the one found, and
under unique keys exactly one entry carries that name); `delete` of an
absent name is a no-op; and any sequence of `add_record`/`delete`
operations from the empty book preserves the invariant that every key
equals its record's name and keys are unique. -/
theorem address_book_key_invariants :
    (∀ (book : AddressBook) (r1 r2 : Record), r1.name = r2.name →
      (book.add_record r1).add_record r2 = book.add_record r2)
    ∧ (∀ (book : AddressBook) (r : Record), (book.add_record r).find r.name = some r)
    ∧ (∀ (book : AddressBook) (r : Record), (book.data.map Prod.fst).Nodup →
      ((book.add_record r).data.countP (fun kv => kv.1 == r.name)) = 1)
    ∧ (∀ (book : AddressBook) (name : String), book.find name = none →
      book.delete name = book)
    ∧ (∀ ops : List BookOp, Wf (applyOps ops)) := by
  refine ⟨?_, ?_, ?_, ?_, ?_⟩
  · intro book r1 r2 hname
    unfold AddressBook.add_record
    rw [hname, dictInsert_dictInsert]
  · intro book r
    exact find_dictInsert_self book.data r.name r
  · intro book r hnodup
    exact countP_key_dictInsert book.data r.name r hnodup
  · intro book name hf
    have habs := (find_eq_none_iff book name).mp hf
    unfold AddressBook.delete
    rw [dictDelete_of_absent book.data name habs]
  · intro ops
    have hbase : Wf ⟨[]⟩ := ⟨by intro kv hkv; simp at hkv, by simp⟩
    rw [applyOps]
    generalize hb : (⟨[]⟩ : AddressBook) = b at hbase
    clear hb
    induction ops generalizing b with
    | nil => exact hbase
    | cons op rest ih =>
      rw [List.foldl_cons]
      apply ih
      cases op with
      | addR r => exact wf_add_record b r hbase
      | delR n => exact wf_delete b n hbase

/-- Witness for `address_book_key_invariants`: two records named "Ann" on
the empty book leave one entry (the second), and deleting an absent name is
a no-op. -/
theorem address_book_key_invariants_witness :
    (AddressBook.add_record (AddressBook.add_record ⟨[]⟩ ⟨"Ann", [], none⟩)
        ⟨"Ann", [⟨"1234567890"⟩], none⟩)
      = AddressBook.add_record ⟨[]⟩ ⟨"Ann", [⟨"1234567890"⟩], none⟩
    ∧ AddressBook.delete ⟨[("Ann", ⟨"Ann", [], none⟩)]⟩ "Bob"
      = ⟨[("Ann", ⟨"Ann", [], none⟩)]⟩ :=
  ⟨address_book_key_invariants.1 ⟨[]⟩ ⟨"Ann", [], none⟩
      ⟨"Ann", [⟨"1234567890"⟩], none⟩ rfl,
   address_book_key_invariants.2.2.2.1 ⟨[("Ann", ⟨"Ann", [], none⟩)]⟩ "Bob" rfl⟩

theorem exceptMap_error_of_mem {α β : Type} (f : α → Except String β)
    (l : List α) (a : α) (ha : a ∈ l) (he : ∃ e, f a = Except.error e) :
    ∃ e, exceptMap f l = Except.error e := by
  induction l with
  | nil => cases ha
  | cons x rest ih =>
    rcases List.mem_cons.mp ha with h | h
    · obtain ⟨e, hfe⟩ := he
      rw [h] at hfe
      exact ⟨e, by simp [exceptMap, hfe]⟩
    · cases hx : f x with
      | error e => exact ⟨e, by simp [exceptMap, hx]⟩
      | ok b =>
        obtain ⟨e, hrest⟩ := ih h
        exact ⟨e, by simp [exceptMap, hx, hrest]⟩

/-- C3 is violated by the code: for any book containing a record with a
Feb-29 birthday and any `today` in a non-leap year,
`get_upcoming_birthdays` does not return normally — the first
`date.replace(year=today.year)` raises `ValueError`, which propagates out
of the method. -/
theorem feb29_get_upcoming_raises (book : AddressBook) (today : Date)
    (r : Record) (b : Birthday) (hr : r ∈ book.data.map Prod.snd)
    (hb : r.birthday = some b) (hm : b.date.month = 2) (hd : b.date.day = 29)
    (hy : isLeap today.year = false) :
    ∃ e, book.get_upcoming_birthdays today = Except.error e := by
  have hvd : validDate today.year b.date.month b.date.day = false := by
    simp [validDate, hm, hd, daysInMonth, hy]
  have hpr : processRecord today r
      = Except.error "day is out of range for month" := by
    simp [processRecord, hb, replaceYear, hvd]
  obtain ⟨e, hmap⟩ := exceptMap_error_of_mem (processRecord today)
    (book.data.map Prod.snd) r hr ⟨_, hpr⟩
  exact ⟨e, by simp [AddressBook.get_upcoming_birthdays, hmap]⟩

/-- Witness for `feb29_get_upcoming_raises`: the record "Deb" with
birthday 29.02.2020 and `today` = 10.06.2023 (2023 is not a leap year). -/
theorem feb29_get_upcoming_raises_witness :
    ∃ e, AddressBook.get_upcoming_birthdays
        ⟨[("Deb", ⟨"Deb", [], some ⟨"29.02.2020", ⟨2020, 2, 29⟩⟩⟩)]⟩
        ⟨2023, 6, 10⟩ = Except.error e :=
  feb29_get_upcoming_raises
    ⟨[("Deb", ⟨"Deb", [], some ⟨"29.02.2020", ⟨2020, 2, 29⟩⟩⟩)]⟩
    ⟨2023, 6, 10⟩ ⟨"Deb", [], some ⟨"29.02.2020", ⟨2020, 2, 29⟩⟩⟩
    ⟨"29.02.2020", ⟨2020, 2, 29⟩⟩ (by simp) rfl rfl rfl rfl

theorem get_upcoming_singleton (today : Date) (k : String) (r : Record) :
    AddressBook.get_upcoming_birthdays ⟨[(k, r)]⟩ today
      = match processRecord today r with
        | Except.error e => Except.error e
        | Except.ok none => Except.ok []
        | Except.ok (some x) => Except.ok [x] := by
  cases hpr : processRecord today r with
  | error e => simp [AddressBook.get_upcoming_birthdays, exceptMap, hpr]
  | ok o =>
    cases o with
    | none => simp [AddressBook.get_upcoming_birthdays, exceptMap, hpr]
    | some x => simp [AddressBook.get_upcoming_birthdays, exceptMap, hpr]

theorem processRecord_eq_of_valid (today : Date) (r : Record) (b : Birthday)
    (hb : r.birthday = some b)
    (hv1 : validDate today.year b.date.month b.date.day = true)
    (hv2 : validDate (today.year + 1) b.date.month b.date.day = true)
    (cand : Date)
    (hcand : cand = if Date.ltb ⟨today.year, b.date.month, b.date.day⟩ today
      then ⟨today.year + 1, b.date.month, b.date.day⟩
      else ⟨today.year, b.date.month, b.date.day⟩) :
    processRecord today r
      = if 0 ≤ dateSub cand today ∧ dateSub cand today ≤ 7 then
          Except.ok (some (r.name, formatDate
            (if cand.weekday = 5 then cand.addDays 2
             else if cand.weekday = 6 then cand.addDays 1
             else cand)))
        else Except.ok none := by
  by_cases hlt : Date.ltb ⟨today.year, b.date.month, b.date.day⟩ today
  · rw [if_pos hlt] at hcand
    simp [processRecord, hb, replaceYear, hv1, hv2, hlt, hcand]
  · rw [if_neg hlt] at hcand
    simp [processRecord, hb, replaceYear, hv1, hlt, hcand]

/-- C1: for a record with a birthday, the candidate date is the birthday's
month/day paired with `today`'s year, advanced one year when strictly
before `today`, and the record appears in `get_upcoming_birthdays` exactly
when `0 ≤ candidate − today ≤ 7` in days (the validity hypotheses exclude
the Feb-29 failure treated separately). -/
theorem upcoming_window (today : Date) (r : Record) (b : Birthday)
    (hb : r.birthday = some b)
    (hv1 : validDate today.year b.date.month b.date.day = true)
    (hv2 : validDate (today.year + 1) b.date.month b.date.day = true)
    (cand : Date)
    (hcand : cand = if Date.ltb ⟨today.year, b.date.month, b.date.day⟩ today
      then ⟨today.year + 1, b.date.month, b.date.day⟩
      else ⟨today.year, b.date.month, b.date.day⟩) :
    ∃ l, AddressBook.get_upcoming_birthdays ⟨[(r.name, r)]⟩ today = Except.ok l
      ∧ ((∃ cd, (r.name, cd) ∈ l) ↔
          (0 ≤ dateSub cand today ∧ dateSub cand today ≤ 7)) := by
  have hpr := processRecord_eq_of_valid today r b hb hv1 hv2 cand hcand
  rw [get_upcoming_singleton today r.name r, hpr]
  by_cases hw : 0 ≤ dateSub cand today ∧ dateSub cand today ≤ 7
  · rw [if_pos hw]
    refine ⟨_, rfl, ?_⟩
    simp [hw]
  · rw [if_neg hw]
    refine ⟨[], rfl, ?_⟩
    simp [hw]

/-- Witness for `upcoming_window`: with today = 10.06.2024, a birthday
7 days out (17.06) is included and one 8 days out (18.06) is excluded. -/
theorem upcoming_window_witness :
    (∃ l, AddressBook.get_upcoming_birthdays
        ⟨[("Cat", ⟨"Cat", [], some ⟨"17.06.1990", ⟨1990, 6, 17⟩⟩⟩)]⟩
        ⟨2024, 6, 10⟩ = Except.ok l ∧ (∃ cd, ("Cat", cd) ∈ l))
    ∧ (∃ l, AddressBook.get_upcoming_birthdays
        ⟨[("Bob", ⟨"Bob", [], some ⟨"18.06.1990", ⟨1990, 6, 18⟩⟩⟩)]⟩
        ⟨2024, 6, 10⟩ = Except.ok l ∧ ¬(∃ cd, ("Bob", cd) ∈ l)) := by
  constructor
  · obtain ⟨l, hl, hiff⟩ := upcoming_window ⟨2024, 6, 10⟩
      ⟨"Cat", [], some ⟨"17.06.1990", ⟨1990, 6, 17⟩⟩⟩ ⟨"17.06.1990", ⟨1990, 6, 17⟩⟩
      rfl (by decide) (by decide) ⟨2024, 6, 17⟩ (by decide)
    exact ⟨l, hl, hiff.mpr (by decide)⟩
  · obtain ⟨l, hl, hiff⟩ := upcoming_window ⟨2024, 6, 10⟩
      ⟨"Bob", [], some ⟨"18.06.1990", ⟨1990, 6, 18⟩⟩⟩ ⟨"18.06.1990", ⟨1990, 6, 18⟩⟩
      rfl (by decide) (by decide) ⟨2024, 6, 18⟩ (by decide)
    refine ⟨l, hl, fun hmem => ?_⟩
    exact absurd (hiff.mp hmem) (by decide)

/-- C2: for an included record, the emitted congratulation date is the
candidate shifted by 2 days when the candidate falls on a Saturday
(`weekday = 5`), by 1 day when on a Sunday (`weekday = 6`), and is the
candidate itself otherwise, formatted as DD.MM.YYYY. -/
theorem upcoming_weekend_shift (today : Date) (r : Record) (b : Birthday)
    (hb : r.birthday = some b)
    (hv1 : validDate today.year b.date.month b.date.day = true)
    (hv2 : validDate (today.year + 1) b.date.month b.date.day = true)
    (cand : Date)
    (hcand : cand = if Date.ltb ⟨today.year, b.date.month, b.date.day⟩ today
      then ⟨today.year + 1, b.date.month, b.date.day⟩
      else ⟨today.year, b.date.month, b.date.day⟩)
    (hwin : 0 ≤ dateSub cand today ∧ dateSub cand today ≤ 7) :
    AddressBook.get_upcoming_birthdays ⟨[(r.name, r)]⟩ today
      = Except.ok [(r.name, formatDate
          (if cand.weekday = 5 then cand.addDays 2
           else if cand.weekday = 6 then cand.addDays 1
           else cand))] := by
  have hpr := processRecord_eq_of_valid today r b hb hv1 hv2 cand hcand
  rw [get_upcoming_singleton today r.name r, hpr, if_pos hwin]

/-- Witness for `upcoming_weekend_shift`: today = 10.06.2024 (a Monday)
and birthday 15.06.2024 (a Saturday) give congratulation date 17.06.2024
(the following Monday). -/
theorem upcoming_weekend_shift_witness :
    AddressBook.get_upcoming_birthdays
        ⟨[("Ann", ⟨"Ann", [], some ⟨"15.06.2024", ⟨2024, 6, 15⟩⟩⟩)]⟩
        ⟨2024, 6, 10⟩
      = Except.ok [("Ann", "17.06.2024")] := by
  have h := upcoming_weekend_shift ⟨2024, 6, 10⟩
    ⟨"Ann", [], some ⟨"15.06.2024", ⟨2024, 6, 15⟩⟩⟩ ⟨"15.06.2024", ⟨2024, 6, 15⟩⟩
    rfl (by decide) (by decide) ⟨2024, 6, 15⟩ (by decide) (by decide)
  rw [h]
  rfl

theorem splitDots_ne_nil (l : List Char) : splitDots l ≠ [] := by
  cases l with
  | nil => simp [splitDots]
  | cons c rest =>
    by_cases h : c = '.'
    · simp [splitDots, h]
    · simp only [splitDots, h, if_neg, not_false_iff]
      cases splitDots rest <;> simp

theorem joinDots_splitDots (l : List Char) : joinDots (splitDots l) = l := by
  induction l with
  | nil => rfl
  | cons c rest ih =>
    by_cases h : c = '.'
    · rw [h]
      show joinDots ([] :: splitDots rest) = '.' :: rest
      cases hs : splitDots rest with
      | nil => exact absurd hs (splitDots_ne_nil rest)
      | cons a parts =>
        show [] ++ '.' :: joinDots (a :: parts) = '.' :: rest
        rw [← hs, ih]
        rfl
    · simp only [splitDots, h, if_neg, not_false_iff]
      cases hs : splitDots rest with
      | nil => exact absurd hs (splitDots_ne_nil rest)
      | cons a parts =>
        rw [hs] at ih
        cases parts with
        | nil =>
          show (c :: a) = c :: rest
          rw [show joinDots [a] = a from rfl] at ih
          rw [ih]
        | cons b parts2 =>
          show (c :: a) ++ '.' :: joinDots (b :: parts2) = c :: rest
          rw [List.cons_append]
          rw [show a ++ '.' :: joinDots (b :: parts2)
            = joinDots (a :: b :: parts2) from rfl, ih]

theorem splitDots_of_no_dot (a : List Char) (h : '.' ∉ a) : splitDots a = [a] := by
  induction a with
  | nil => rfl
  | cons c rest ih =>
    have hc : c ≠ '.' := fun hc => h (hc ▸ List.mem_cons_self c rest)
    have hr := ih (fun hm => h (List.mem_cons_of_mem c hm))
    simp [splitDots, hc, hr]

theorem splitDots_append (a : List Char) (l : List Char) (h : '.' ∉ a) :
    splitDots (a ++ '.' :: l) = a :: splitDots l := by
  induction a with
  | nil => simp [splitDots]
  | cons c rest ih =>
    have hc : c ≠ '.' := fun hc => h (hc ▸ List.mem_cons_self c rest)
    have hr := ih (fun hm => h (List.mem_cons_of_mem c hm))
    simp [splitDots, hc, hr]

theorem daysInMonth_le_31 (y m : Nat) : daysInMonth y m ≤ 31 := by
  unfold daysInMonth
  split
  · split <;> omega
  · split <;> omega

theorem validDate_bounds (y m d : Nat) (h : validDate y m d = true) :
    1 ≤ d ∧ d ≤ 31 ∧ 1 ≤ m ∧ m ≤ 12 := by
  have h31 := daysInMonth_le_31 y m
  simp only [validDate, Bool.and_eq_true, decide_eq_true_eq] at h
  omega

theorem no_dot_of_all_digit (a : List Char) (h : a.all Char.isDigit = true) :
    '.' ∉ a := by
  intro hm
  have := List.all_eq_true.mp h '.' hm
  simp [Char.isDigit] at this

/-- C5 (amended): `Birthday` construction succeeds exactly when the input
is day `.` month `.` year with a 1–2 digit day, a 1–2 digit month (zero
padding optional, as `strptime` accepts `"5.6.2024"`) and an exactly
4-digit year, denoting a real calendar date; on any other input —
including real-date patterns like "30.02.2024" that denote no calendar
date — it fails with the `ValueError`. -/
theorem birthday_create_amended (s : String) :
    ((∃ b, Birthday.create s = Except.ok b) ↔
      (∃ ds ms ys : List Char,
        s.data = ds ++ '.' :: (ms ++ '.' :: ys)
        ∧ ds ≠ [] ∧ ds.length ≤ 2 ∧ ds.all Char.isDigit = true
        ∧ ms ≠ [] ∧ ms.length ≤ 2 ∧ ms.all Char.isDigit = true
        ∧ ys.length = 4 ∧ ys.all Char.isDigit = true
        ∧ validDate (toNatDigits ys) (toNatDigits ms) (toNatDigits ds) = true))
    ∧ (∀ b, Birthday.create s = Except.ok b → b.value = s)
    ∧ Birthday.create "30.02.2024"
        = Except.error "Invalid date format. Use DD.MM.YYYY" := by
  refine ⟨⟨?_, ?_⟩, ?_, rfl⟩
  · rintro ⟨b, hb⟩
    unfold Birthday.create at hb
    cases hst : strptimeDMY s.data with
    | none => rw [hst] at hb; exact absurd hb (by simp)
    | some d =>
      unfold strptimeDMY at hst
      split at hst
      case h_2 => exact absurd hst (by simp)
      case h_1 ds ms ys heq =>
        split at hst
        case isFalse => exact absurd hst (by simp)
        case isTrue hcond =>
          split at hst
          case isFalse => exact absurd hst (by simp)
          case isTrue hvd =>
            refine ⟨ds, ms, ys, ?_, ?_⟩
            · have hj := joinDots_splitDots s.data
              rw [heq] at hj
              rw [← hj]
              rfl
            · simp only [Bool.and_eq_true, decide_eq_true_eq, ne_eq] at hcond
              tauto
  · rintro ⟨ds, ms, ys, hdata, hds1, hds2, hds3, hms1, hms2, hms3, hys1, hys2, hvd⟩
    have hdot_ds := no_dot_of_all_digit ds hds3
    have hdot_ms := no_dot_of_all_digit ms hms3
    have hdot_ys := no_dot_of_all_digit ys hys2
    have hsp : splitDots s.data = [ds, ms, ys] := by
      rw [hdata, splitDots_append ds _ hdot_ds, splitDots_append ms _ hdot_ms,
          splitDots_of_no_dot ys hdot_ys]
    have hbounds := validDate_bounds _ _ _ hvd
    obtain ⟨hb1, hb2, hb3, hb4⟩ := hbounds
    have hcond : (ds ≠ [] && ds.all Char.isDigit && ds.length ≤ 2
        && 1 ≤ toNatDigits ds && toNatDigits ds ≤ 31
        && ms ≠ [] && ms.all Char.isDigit && ms.length ≤ 2
        && 1 ≤ toNatDigits ms && toNatDigits ms ≤ 12
        && ys.length = 4 && ys.all Char.isDigit) = true := by
      simp only [Bool.and_eq_true, decide_eq_true_eq, ne_eq]
      tauto
    have hst : strptimeDMY s.data
        = some ⟨toNatDigits ys, toNatDigits ms, toNatDigits ds⟩ := by
      unfold strptimeDMY
      rw [hsp]
      simp only [hcond, hvd, if_true]
    refine ⟨⟨s, ⟨toNatDigits ys, toNatDigits ms, toNatDigits ds⟩⟩, ?_⟩
    unfold Birthday.create
    rw [hst]
  · intro b hb
    unfold Birthday.create at hb
    cases hst : strptimeDMY s.data with
    | none => rw [hst] at hb; exact absurd hb (by simp)
    | some d =>
      rw [hst] at hb
      have := Except.ok.inj hb
      rw [← this]

/-- Witness for `birthday_create_amended`: "05.06.2024" parses (day "05",
month "06", year "2024"). -/
theorem birthday_create_amended_witness :
    ∃ b, Birthday.create "05.06.2024" = Except.ok b :=
  (birthday_create_amended "05.06.2024").1.mpr
    ⟨['0', '5'], ['0', '6'], ['2', '0', '2', '4'],
      by decide, by decide, by decide, by decide, by decide, by decide,
      by decide, by decide, by decide, by decide⟩

/-- Counterexample to C5 as stated: "5.6.2024" does not match the strict
DD.MM.YYYY pattern, yet `Birthday` construction succeeds on it (Python's
`strptime` with `%d.%m.%Y` accepts 1-digit day and month fields). -/
theorem birthday_pattern_cex :
    (∃ b, Birthday.create "5.6.2024" = Except.ok b)
    ∧ specDDMMYYYY "5.6.2024" = false :=
  ⟨⟨⟨"5.6.2024", ⟨2024, 6, 5⟩⟩, rfl⟩, rfl⟩

theorem ne_of_head_ne (a t : String) (ca cb : Char) (ha : a.data.head? = some ca)
    (hb : t.data.head? = some cb) (hne : ca ≠ cb) : a ≠ t := by
  intro h
  rw [h, hb] at ha
  exact hne (Option.some.inj ha).symm

theorem ne_of_mem_not_mem (a t : String) (c : Char) (ha : c ∈ a.data)
    (ht : c ∉ t.data) : a ≠ t :=
  fun h => ht (h ▸ ha)

theorem append_fixed_suffix_ne (a sfx target : String)
    (hne : sfx.data ≠ target.data.drop (target.length - sfx.length)) :
    a ++ sfx ≠ target := by
  intro h
  apply hne
  have hd : a.data ++ sfx.data = target.data := by
    rw [← String.data_append, h]
  have ha : a.data.length = a.length := rfl
  have hs : sfx.data.length = sfx.length := rfl
  have ht : target.data.length = target.length := rfl
  have hl : a.length + sfx.length = target.length := by
    have := congrArg List.length hd
    rw [List.length_append, ha, hs, ht] at this
    exact this
  have hdrop : (a.data ++ sfx.data).drop a.data.length = sfx.data :=
    List.drop_left a.data sfx.data
  rw [hd] at hdrop
  rw [← hdrop]
  congr 1
  omega

theorem pyJoin_cons (sep x : String) (xs : List String) :
    ∃ r : String, pyJoin sep (x :: xs) = x ++ r := by
  cases xs with
  | nil => exact ⟨"", by simp [pyJoin]⟩
  | cons y ys => exact ⟨sep ++ pyJoin sep (y :: ys), by simp [pyJoin, String.append_assoc]⟩

theorem phone_error_msg (s e : String) (h : Phone.create s = Except.error e) :
    e = "Phone number must be exactly 10 digits and contain only numbers." := by
  unfold Phone.create at h
  split at h
  · exact (Except.error.inj h).symm
  · exact absurd h (by simp)

theorem birthday_error_msg (s e : String) (h : Birthday.create s = Except.error e) :
    e = "Invalid date format. Use DD.MM.YYYY" := by
  unfold Birthday.create at h
  split at h
  · exact absurd h (by simp)
  · exact (Except.error.inj h).symm

theorem replaceYear_error_msg (d : Date) (y : Nat) (e : String)
    (h : replaceYear d y = Except.error e) : e = "day is out of range for month" := by
  unfold replaceYear at h
  split at h
  · exact absurd h (by simp)
  · exact (Except.error.inj h).symm

theorem processRecord_error_msg (today : Date) (r : Record) (e : String)
    (h : processRecord today r = Except.error e) :
    e = "day is out of range for month" := by
  unfold processRecord at h
  cases hb : r.birthday with
  | none => simp [hb] at h
  | some b =>
    simp only [hb] at h
    cases h1 : replaceYear b.date today.year with
    | error e1 =>
      simp only [h1] at h
      exact (Except.error.inj h) ▸ replaceYear_error_msg _ _ _ h1
    | ok bty0 =>
      simp only [h1] at h
      by_cases hlt : bty0.ltb today = true
      · rw [if_pos hlt] at h
        cases h2 : replaceYear b.date (today.year + 1) with
        | error e2 =>
          simp only [h2] at h
          exact (Except.error.inj h) ▸ replaceYear_error_msg _ _ _ h2
        | ok bty =>
          simp only [h2] at h
          split at h <;> simp at h
      · rw [if_neg hlt] at h
        simp only [] at h
        split at h <;> simp at h

theorem exceptMap_error_imp {α β : Type} (f : α → Except String β) (l : List α)
    (e : String) (h : exceptMap f l = Except.error e) :
    ∃ a ∈ l, f a = Except.error e := by
  induction l with
  | nil => exact absurd h (by simp [exceptMap])
  | cons x rest ih =>
    unfold exceptMap at h
    cases hx : f x with
    | error e1 =>
      rw [hx] at h
      exact ⟨x, List.mem_cons_self x rest, by rw [hx, Except.error.inj h]⟩
    | ok b =>
      rw [hx] at h
      cases hr : exceptMap f rest with
      | error e2 =>
        rw [hr] at h
        obtain ⟨a, ha, hfa⟩ := ih (by rw [hr, Except.error.inj h])
        exact ⟨a, List.mem_cons_of_mem x ha, hfa⟩
      | ok bs => rw [hr] at h; exact absurd h (by simp)

theorem get_upcoming_error_msg (book : AddressBook) (today : Date) (e : String)
    (h : book.get_upcoming_birthdays today = Except.error e) :
    e = "day is out of range for month" := by
  unfold AddressBook.get_upcoming_birthdays at h
  cases hm : exceptMap (processRecord today) (book.data.map Prod.snd) with
  | error e1 =>
    rw [hm] at h
    obtain ⟨a, _, hfa⟩ := exceptMap_error_imp _ _ _ hm
    exact (Except.error.inj h) ▸ processRecord_error_msg today a e1 hfa
  | ok l => rw [hm] at h; exact absurd h (by simp)

theorem infix_colon_ne (a mid b : String) (hm : ':' ∈ mid.data) :
    a ++ mid ++ b ≠ "Please enter a command." := by
  apply ne_of_mem_not_mem _ _ ':'
  · show ':' ∈ (a.data ++ mid.data) ++ b.data
    exact List.mem_append.mpr (Or.inl (List.mem_append.mpr (Or.inr hm)))
  · decide

theorem editPhoneList_msg (phones : List Phone) (old_phone new_phone : String) :
    (editPhoneList phones old_phone new_phone).2 = "Phone number not found."
    ∨ (editPhoneList phones old_phone new_phone).2 = "Phone number updated."
    ∨ (editPhoneList phones old_phone new_phone).2
        = "Phone number must be exactly 10 digits and contain only numbers." := by
  induction phones with
  | nil => left; rfl
  | cons p rest ih =>
    by_cases hp : p.value = old_phone
    · cases hc : Phone.create new_phone with
      | ok np => right; left; simp [editPhoneList, hp, hc]
      | error e =>
        right; right
        have he := phone_error_msg new_phone e hc
        simp [editPhoneList, hp, hc, he]
    · rcases ih with h | h | h
      · left; simp [editPhoneList, hp, h]
      · right; left; simp [editPhoneList, hp, h]
      · right; right; simp [editPhoneList, hp, h]

theorem out_add_contact (args : List String) (book : AddressBook) :
    (input_error "add_contact" add_contact (some args) book).2
      ≠ "Please enter a command." := by
  rcases args with _ | ⟨a, _ | ⟨b, rest⟩⟩
  · simp [input_error]
  · simp [input_error]
  · cases hf : book.find a with
    | some r =>
      by_cases hb : b = ""
      · simp [input_error, add_contact, hf, hb]
      · cases hp : Phone.create b with
        | ok p => simp [input_error, add_contact, hf, hb, Record.add_phone, hp]
        | error e =>
          have he := phone_error_msg b e hp
          simp [input_error, add_contact, hf, hb, Record.add_phone, hp, he]
    | none =>
      by_cases hb : b = ""
      · simp [input_error, add_contact, hf, hb]
      · cases hp : Phone.create b with
        | ok p => simp [input_error, add_contact, hf, hb, Record.add_phone, hp]
        | error e =>
          have he := phone_error_msg b e hp
          simp [input_error, add_contact, hf, hb, Record.add_phone, hp, he]

theorem out_change_contact (args : List String) (book : AddressBook) :
    (input_error "change_contact" change_contact (some args) book).2
      ≠ "Please enter a command." := by
  rcases args with _ | ⟨a, _ | ⟨b, _ | ⟨c, _ | ⟨d, rest⟩⟩⟩⟩
  · simp [input_error]
  · simp [input_error]
  · simp [input_error]
  · cases hf : book.find a with
    | some r =>
      rcases editPhoneList_msg r.phones b c with h | h | h <;>
        simp [input_error, change_contact, hf, Record.edit_phone, h]
    | none => simp [input_error, change_contact, hf]
  · simp [input_error, change_contact, show ¬(rest.length + 1 + 1 + 1 + 1 < 3) from by omega]

theorem out_show_phone (args : List String) (book : AddressBook) :
    (input_error "show_phone" show_phone (some args) book).2
      ≠ "Please enter a command." := by
  rcases args with _ | ⟨a, rest⟩
  · simp [input_error]
  · cases hf : book.find a with
    | some r =>
      have hne := infix_colon_ne a ": " (pyJoin "; " (r.phones.map Phone.value)) (by decide)
      simp [input_error, show_phone, hf, hne]
    | none => simp [input_error, show_phone, hf]

theorem out_add_birthday (args : List String) (book : AddressBook) :
    (input_error "add_birthday" add_birthday (some args) book).2
      ≠ "Please enter a command." := by
  rcases args with _ | ⟨a, _ | ⟨b, rest⟩⟩
  · simp [input_error]
  · simp [input_error, add_birthday]
  · have hlen : ¬(rest.length + 1 + 1 < 2) := by omega
    cases hf : book.find a with
    | some r =>
      cases hc : Birthday.create b with
      | ok bd =>
        have hne : "Birthday added for " ++ a ++ "." ≠ "Please enter a command." :=
          ne_of_head_ne _ _ 'B' 'P' rfl rfl (by decide)
        simp [input_error, add_birthday, hf, Record.add_birthday, hc, hne, hlen]
      | error e =>
        have he := birthday_error_msg b e hc
        simp [input_error, add_birthday, hf, Record.add_birthday, hc, he, hlen]
    | none => simp [input_error, add_birthday, hf, hlen]

theorem out_show_birthday (args : List String) (book : AddressBook) :
    (input_error "show_birthday" show_birthday (some args) book).2
      ≠ "Please enter a command." := by
  rcases args with _ | ⟨a, rest⟩
  · simp [input_error, show_birthday]
  · cases hf : book.find a with
    | some r =>
      cases hbd : r.birthday with
      | some bd =>
        have hne := infix_colon_ne a "\x27s birthday: " bd.value (by decide)
        simp [input_error, show_birthday, hf, hbd, hne]
      | none =>
        have hne := append_fixed_suffix_ne a " has no birthday set."
          "Please enter a command." (by decide)
        simp [input_error, show_birthday, hf, hbd, hne]
    | none => simp [input_error, show_birthday, hf]

theorem out_birthdays (today : Date) (args : List String) (book : AddressBook) :
    (input_error "birthdays" (birthdays today) (some args) book).2
      ≠ "Please enter a command." := by
  cases hg : book.get_upcoming_birthdays today with
  | error e =>
    have he := get_upcoming_error_msg book today e hg
    simp [input_error, birthdays, hg, he]
  | ok upcoming =>
    cases upcoming with
    | nil => simp [input_error, birthdays, hg]
    | cons u us =>
      obtain ⟨r, hr⟩ := pyJoin_cons "\n" ("Congratulate " ++ u.1 ++ " on " ++ u.2)
        (us.map (fun bi => "Congratulate " ++ bi.1 ++ " on " ++ bi.2))
      have hne : pyJoin "\n" (("Congratulate " ++ u.1 ++ " on " ++ u.2)
            :: us.map (fun bi => "Congratulate " ++ bi.1 ++ " on " ++ bi.2))
          ≠ "Please enter a command." := by
        rw [hr]
        exact ne_of_head_ne _ _ 'C' 'P' rfl rfl (by decide)
      simp [input_error, birthdays, hg, hne]

theorem out_show_all (book : AddressBook) :
    show_all book ≠ "Please enter a command." := by
  unfold show_all
  cases hdata : book.data with
  | nil => simp
  | cons kv rest =>
    simp only [reduceCtorEq, if_false]
    obtain ⟨r, hr⟩ := pyJoin_cons "\n" (Record.str kv.2) ((rest.map Prod.snd).map Record.str)
    rw [List.map_cons, List.map_cons, hr]
    exact ne_of_head_ne _ _ 'C' 'P' rfl rfl (by decide)

theorem splitWsAux_all_ws (l : List Char)
    (h : ∀ c ∈ l, c.isWhitespace = true) : splitWsAux l [] = [] := by
  induction l with
  | nil => rfl
  | cons c rest ih =>
    have hc := h c (List.mem_cons_self c rest)
    have hr := ih (fun x hx => h x (List.mem_cons_of_mem c hx))
    simp [splitWsAux, hc, hr]

/-- C10: an empty or whitespace-only input line parses to
`(None, [])` and the dispatch answers "Invalid command."; and no possible
input line can ever make the dispatch produce the decorator's
"Please enter a command." answer — every handler is invoked with a real
argument list, so that branch is unreachable. -/
theorem blank_input_dispatch :
    (∀ s : String, s.data.all Char.isWhitespace = true →
      parse_input s = (none, []) ∧
      ∀ (today : Date) (book : AddressBook),
        dispatch today s book = (book, "Invalid command."))
    ∧ (∀ (today : Date) (s : String) (book : AddressBook),
      (dispatch today s book).2 ≠ "Please enter a command.") := by
  constructor
  · intro s hws
    have hsplit : splitWs s.data = [] :=
      splitWsAux_all_ws s.data (List.all_eq_true.mp hws)
    have hp : parse_input s = (none, []) := by
      unfold parse_input
      rw [hsplit]
    refine ⟨hp, fun today book => ?_⟩
    unfold dispatch
    rw [hp]
  · intro today s book
    rcases hp : parse_input s with ⟨c?, args⟩
    unfold dispatch
    rw [hp]
    cases c? with
    | none => simp
    | some c =>
      by_cases h1 : c = "close" ∨ c = "exit"
      · simp [h1]
      · by_cases h2 : c = "hello"
        · simp [h1, h2]
        · by_cases h3 : c = "add"
          · simpa [h1, h2, h3] using out_add_contact args book
          · by_cases h4 : c = "change"
            · simpa [h1, h2, h3, h4] using out_change_contact args book
            · by_cases h5 : c = "phone"
              · simpa [h1, h2, h3, h4, h5] using out_show_phone args book
              · by_cases h6 : c = "all"
                · simpa [h1, h2, h3, h4, h5, h6] using out_show_all book
                · by_cases h7 : c = "add-birthday"
                  · simpa [h1, h2, h3, h4, h5, h6, h7] using out_add_birthday args book
                  · by_cases h8 : c = "show-birthday"
                    · simpa [h1, h2, h3, h4, h5, h6, h7, h8]
                        using out_show_birthday args book
                    · by_cases h9 : c = "birthdays"
                      · simpa [h1, h2, h3, h4, h5, h6, h7, h8, h9]
                          using out_birthdays today args book
                      · simp [h1, h2, h3, h4, h5, h6, h7, h8, h9]

/-- Witness for `blank_input_dispatch`: the empty line and a whitespace
line dispatch to "Invalid command.", and a sample command's answer is not
"Please enter a command.". -/
theorem blank_input_dispatch_witness :
    parse_input "   " = (none, []) ∧
    dispatch ⟨2024, 1, 1⟩ "   " ⟨[]⟩ = (⟨[]⟩, "Invalid command.") ∧
    (dispatch ⟨2024, 1, 1⟩ "hello there" ⟨[]⟩).2 ≠ "Please enter a command." := by
  obtain ⟨h1, h2⟩ := blank_input_dispatch.1 "   " (by decide)
  exact ⟨h1, h2 ⟨2024, 1, 1⟩ ⟨[]⟩,
    blank_input_dispatch.2 ⟨2024, 1, 1⟩ "hello there" ⟨[]⟩⟩
